import Mathlib

/-!
# Verification of the plan-driven web extraction engine

A shallow embedding of the scraping core of the `web-crawler` repository
(`app/utils/http.py`, `app/utils/browser.py`, `app/agents/scraper_agent.py`,
`app/agents/planner_agent.py`, `app/config.py`, `app/models/schemas.py`),
together with theorems settling the frozen claims about it.

Python dictionaries are modelled as association lists in insertion order;
network transports, the Playwright rendering driver and the BeautifulSoup
CSS-selector engine are modelled as explicit function parameters (oracles);
Python exceptions are modelled with `Except`.
-/

namespace WebCrawler

/-! ## String helpers (Python `in`, `str.lower`, `str.startswith`) -/

/-- Python `needle in hay` substring test, on character lists. -/
def containsSubAux (n : List Char) : List Char → Bool
  | [] => n.isEmpty
  | c :: t => n.isPrefixOf (c :: t) || containsSubAux n t

/-- Python `needle in hay` on strings. -/
def strContains (hay needle : String) : Bool :=
  containsSubAux needle.data hay.data

/-- Python `str.lower()` (ASCII-level model). -/
def strLower (s : String) : String :=
  ⟨s.data.map Char.toLower⟩

/-- Python `s.startswith(pre)`. -/
def strStartsWith (s pre : String) : Bool :=
  pre.data.isPrefixOf s.data

/-! ## URL helpers (model of `urllib.parse` for http(s) URLs)

`urlparse` is modelled for the well-formed absolute http(s) URLs the engine
works with: the netloc is the text between the first `//` and the next
`/`, `?` or `#`; the scheme is the text before `://`. -/

/-- Remainder of `hay` after the first occurrence of `n`, if any. -/
def dropUntilSub (n : List Char) : List Char → Option (List Char)
  | [] => if n.isEmpty then some [] else none
  | c :: t => if n.isPrefixOf (c :: t) then some ((c :: t).drop n.length)
              else dropUntilSub n t

/-- `urlparse(url).netloc` for absolute URLs. -/
def urlNetloc (url : String) : String :=
  match dropUntilSub "//".data url.data with
  | none => ""
  | some rest => ⟨rest.takeWhile (fun c => c ≠ '/' && c ≠ '?' && c ≠ '#')⟩

/-- `urlparse(url).scheme` for absolute URLs. -/
def urlScheme (url : String) : String :=
  if strContains url "://" then ⟨url.data.takeWhile (fun c => c ≠ ':')⟩ else ""

/-- `f"{scheme}://{netloc}"` — the listing's origin. -/
def baseOrigin (url : String) : String :=
  urlScheme url ++ "://" ++ urlNetloc url

/-- Prefix of `s` up to and including the last `/` (helper for `urljoin`). -/
def keepThroughLastSlash (s : String) : String :=
  ⟨(((s.data.reverse).dropWhile (fun c => c ≠ '/')).reverse)⟩

/-- Model of `urllib.parse.urljoin(base, rel)` for the only case the scraper
reaches it: `rel` neither absolute, protocol-relative, root-relative nor a
fragment — the relative path replaces the last segment of `base`. -/
def urljoinModel (base rel : String) : String :=
  keepThroughLastSlash base ++ rel

/-! ## Python dict model: association lists in insertion order -/

/-- `d[k]` / `d.get(k)`: first binding of `k`. -/
def dlookup {β : Type} (d : List (String × β)) (k : String) : Option β :=
  (d.find? (fun p => p.1 == k)).map Prod.snd

/-- `d[k] = v`: overwrite in place at the key's position if the key
exists, else append (Python dicts never hold a key twice). -/
def dinsert {β : Type} : List (String × β) → String → β → List (String × β)
  | [], k, v => [(k, v)]
  | p :: d, k, v => if p.1 == k then (k, v) :: d else p :: dinsert d k v

/-- `d.update(e)`: insert every binding of `e` into `d` in order. -/
def dupdate {β : Type} (d e : List (String × β)) : List (String × β) :=
  e.foldl (fun acc p => dinsert acc p.1 p.2) d

/-- `k in d`. -/
def dhasKey {β : Type} (d : List (String × β)) (k : String) : Bool :=
  d.any (fun p => p.1 == k)

/-- Key list of a dict. -/
def dkeys {β : Type} (d : List (String × β)) : List String :=
  d.map Prod.fst

/-- The `seen`-set deduplication loop of the scraper (order preserving). -/
def dedupPreserve (l : List String) : List String :=
  l.foldl (fun acc u => if acc.any (fun x => x == u) then acc else acc ++ [u]) []

/-- The `if max_details is not None: xs = xs[:cap]` slicing shared by the
enrichment passes. -/
def capOpt {α : Type} (md : Option Nat) (l : List α) : List α :=
  match md with
  | some m => l.take m
  | none => l

/-! ## Errors -/

/-- Python exceptions the embedded code can raise. -/
inductive PyErr where
  /-- httpx network error / timeout / `raise_for_status` on non-2xx. -/
  | fetchError
  /-- Attribute access on an object without that attribute. -/
  | attributeError
  deriving DecidableEq, Repr

/-! ## `app/config.py` — Settings -/

/-- The fields declared on the pydantic `Settings` class in `app/config.py`
(crawler-relevant subset; the Azure/logging fields carry no logic). -/
structure Settings where
  max_concurrent_requests : Nat
  request_delay_ms : Nat
  request_timeout_s : Nat
  max_pages_per_crawl : Nat
  playwright_headless : Bool
  playwright_ws_endpoint : Option String
  deriving Repr

/-- The defaults from `app/config.py`. -/
def defaultSettings : Settings :=
  { max_concurrent_requests := 5
    request_delay_ms := 1000
    request_timeout_s := 30
    max_pages_per_crawl := 500
    playwright_headless := true
    playwright_ws_endpoint := none }

/-- Python attribute lookup of an integer-valued setting on the `Settings`
object: only the names declared in `app/config.py` resolve; any other name
raises `AttributeError` (modelled as `none`). -/
def Settings.natAttr (s : Settings) : String → Option Nat
  | "max_concurrent_requests" => some s.max_concurrent_requests
  | "request_delay_ms" => some s.request_delay_ms
  | "request_timeout_s" => some s.request_timeout_s
  | "max_pages_per_crawl" => some s.max_pages_per_crawl
  | _ => none

/-! ## `app/utils/http.py` — direct transport -/

/-- Outcome of one direct httpx GET: a transport error (network error or
timeout), or a response with a status code and body text. -/
inductive NetResult where
  | err
  | resp (status : Nat) (text : String)
  deriving Repr

/-- `fetch_page` (`app/utils/http.py:28`): GET the URL and
`raise_for_status` — the text is returned only for a 2xx success status,
anything else raises. -/
def fetch_page (r : NetResult) : Except PyErr String :=
  match r with
  | .err => .error .fetchError
  | .resp status text =>
      if 200 ≤ status && status < 300 then .ok text else .error .fetchError

/-- `fetch_pages` (`app/utils/http.py:41`): fetch a batch of URLs,
recording `""` for any URL whose fetch raised. The network is the oracle
`net : String → Option String` (`none` = the fetch raised). Duplicate URLs
collapse onto one dict key; dict insertion order is modelled as request
order (completion order is nondeterministic in the source). -/
def fetch_pages (net : String → Option String) (urls : List String) :
    List (String × String) :=
  (dedupPreserve urls).map (fun u => (u, (net u).getD ""))

/-! ## `app/agents/planner_agent.py` — `_fetch_html`, the dual-path fetcher -/

/-- One URL's world: the direct-transport outcome and the rendering-driver
outcome (`Except`, since a Playwright failure propagates). -/
structure FetchWorld where
  direct : NetResult
  js : Except PyErr String

/-- The fallback test of `_fetch_html` (`app/agents/planner_agent.py:90`):
the direct attempt raised, or the body has fewer than 2000 characters, or
its lowercase form contains `"<noscript>"`. -/
def needsJsFallback (direct : Except PyErr String) : Bool :=
  match direct with
  | .error _ => true
  | .ok html => html.length < 2000 || strContains (strLower html) "<noscript>"

/-- `_fetch_html` (`app/agents/planner_agent.py:86`): try the direct fetch;
on failure, an implausibly short body, or a no-script marker, retry once
with the rendering driver. Returns the resulting markup together with the
number of rendering-driver attempts made. -/
def fetch_html (w : FetchWorld) : Except PyErr String × Nat :=
  let direct := fetch_page w.direct
  if needsJsFallback direct then (w.js, 1) else (direct, 0)

/-! ## JSON values (`resp.json()` results) -/

/-- Parsed JSON bodies. -/
inductive Json where
  | null
  | str (s : String)
  | num (n : Int)
  | boolean (b : Bool)
  | arr (xs : List Json)
  | obj (fields : List (String × Json))

instance : Inhabited Json := ⟨Json.null⟩

/-- Python `str(v)` for JSON scalars as the API flattener applies it
(objects and arrays are rendered opaquely; the claims do not depend on
their textual form). -/
def Json.pyStr : Json → String
  | .null => "None"
  | .str s => s
  | .num n => toString n
  | .boolean b => if b then "True" else "False"
  | .arr _ => "[...]"
  | .obj _ => "{...}"

/-! ## BeautifulSoup model

CSS-selector evaluation is external (`BeautifulSoup` + `lxml`); it is
modelled by oracle functions carried by the parsed documents. -/

/-- A matched HTML element: its `get_text(strip=True)` result and its
attribute dict. -/
structure Elem where
  text : String
  attrs : List (String × String)
  deriving Repr, DecidableEq

/-- `el.get(attr)`: `none` when the attribute is absent. -/
def Elem.getAttr (el : Elem) (a : String) : Option String :=
  dlookup el.attrs a

/-- `el.get(attr, "")`. -/
def Elem.getAttrD (el : Elem) (a : String) : String :=
  (dlookup el.attrs a).getD ""

/-- One item container matched on a page: `container.select_one` restricted
to its descendants. -/
structure Container where
  selOne : String → Option Elem

/-- A parsed document: `soup.select` (all matching containers, in document
order) and `soup.select_one` (first match). -/
structure Doc where
  sel : String → List Container
  selOne : String → Option Elem

/-- The `BeautifulSoup(html, "lxml")` oracle. -/
def ParseFn : Type := String → Doc

/-! ## `app/models/schemas.py` — plan and page data -/

/-- `PaginationStrategy` (`app/models/schemas.py:15`). -/
inductive PaginationStrategy where
  | NONE
  | NEXT_BUTTON
  | PAGE_NUMBERS
  | INFINITE_SCROLL
  | LOAD_MORE_BUTTON
  | ALPHABET_TABS
  | API_ENDPOINT
  deriving DecidableEq, Repr

/-- `ScrapingTarget` (`app/models/schemas.py:25`). -/
structure ScrapingTarget where
  item_container_selector : String
  field_selectors : List (String × String)
  field_attributes : List (String × String)
  detail_link_selector : Option String
  detail_button_selector : Option String

/-- `DetailSubLink` (`app/models/schemas.py:54`); `attr` stands for the
source's `attribute` field, which is a reserved word here. -/
structure DetailSubLink where
  label : String
  selector : String
  attr : String
  deriving Repr, DecidableEq

/-- `DetailPagePlan` (`app/models/schemas.py:69`). -/
structure DetailPagePlan where
  field_selectors : List (String × String)
  field_attributes : List (String × String)
  sub_links : List DetailSubLink

/-- `DetailApiPlan` (`app/models/schemas.py:92`). `re.search` with the
plan's single-capture-group `id_regex` is modelled as an abstract partial
match function (`none` = no match, `some g` = `match.group(1)`); a present
regex is treated as a truthy (non-empty) pattern string. -/
structure DetailApiPlan where
  api_url_template : String
  id_selector : String
  id_attribute : Option String
  id_regex : Option (String → Option String)
  sample_response : Option Json

/-- `ScrapingPlan` (`app/models/schemas.py:118`). -/
structure ScrapingPlan where
  url : String
  requires_javascript : Bool
  pagination : PaginationStrategy
  pagination_selector : Option String
  pagination_urls : List String
  alphabet_tab_selector : Option String
  api_endpoint : Option String
  api_params : List (String × String)
  target : ScrapingTarget
  detail_page_fields : List (String × String)
  detail_page_field_attributes : List (String × String)
  detail_page_plan : Option DetailPagePlan
  detail_api_plan : Option DetailApiPlan
  wait_selector : Option String
  notes : String

/-- `PageData` (`app/models/schemas.py:176`). -/
structure PageData where
  url : String
  items : List (List (String × Option String))
  detail_pages : List (String × String)
  detail_sub_pages : List (String × List (String × String))
  detail_api_responses : List (String × Json)

/-! ## `ScraperAgent._extract_items` (`app/agents/scraper_agent.py:494`) -/

/-- The per-field body of the extraction loop: first matching descendant;
configured attribute if one is set (truthy), else trimmed visible text;
no match means `none`. -/
def fieldValue (target : ScrapingTarget) (c : Container) (f sel : String) :
    Option String :=
  match c.selOne sel with
  | none => none
  | some el =>
      match dlookup target.field_attributes f with
      | some attr => if attr == "" then some el.text else el.getAttr attr
      | none => some el.text

/-- The record built for one container: the configured fields in plan
order, then the synthetic `detail_link` and `_detail_api_id` entries when
their guards hold. -/
def extract_record (target : ScrapingTarget) (dap : Option DetailApiPlan)
    (c : Container) : List (String × Option String) :=
  let record := target.field_selectors.foldl
    (fun acc p => dinsert acc p.1 (fieldValue target c p.1 p.2)) []
  let record :=
    match target.detail_link_selector with
    | some dls =>
        if dls == "" || dhasKey record "detail_link" then record
        else
          match c.selOne dls with
          | some link_el => dinsert record "detail_link" (link_el.getAttr "href")
          | none => record
    | none => record
  match dap with
  | some ap =>
      if dhasKey record "_detail_api_id" then record
      else
        match c.selOne ap.id_selector with
        | some id_el =>
            let raw_id :=
              match ap.id_attribute with
              | some ia => if ia == "" then id_el.text else id_el.getAttrD ia
              | none => id_el.text
            let raw_id :=
              match ap.id_regex with
              | some rex =>
                  if raw_id == "" then raw_id
                  else match rex raw_id with
                       | some g => g
                       | none => raw_id
              | none => raw_id
            dinsert record "_detail_api_id"
              (if raw_id == "" then none else some raw_id)
        | none => record
  | none => record

/-- `_extract_items`: select every item container and build its record. -/
def extract_items (parse : ParseFn) (html : String) (target : ScrapingTarget)
    (dap : Option DetailApiPlan) : List (List (String × Option String)) :=
  ((parse html).sel target.item_container_selector).map (extract_record target dap)

/-! ## `ScraperAgent._resolve_page_urls` (`app/agents/scraper_agent.py:489`) -/

/-- If the plan carries a (truthy, i.e. non-empty) precomputed URL list,
take it capped at `max_pages_per_crawl`; otherwise the single plan URL.
The pagination strategy is not consulted. -/
def resolve_page_urls (s : Settings) (plan : ScrapingPlan) : List String :=
  if !plan.pagination_urls.isEmpty then
    plan.pagination_urls.take s.max_pages_per_crawl
  else [plan.url]

/-! ## Detail-link and sub-link URL resolution (`app/agents/scraper_agent.py`) -/

/-- Resolution of a truthy `detail_link` value
(`app/agents/scraper_agent.py:272`): a link starting with `/` is prefixed
with the listing origin; every other link — including `#...` and
`javascript:...` — passes through unchanged. -/
def resolve_detail_link (base_origin link : String) : String :=
  if strStartsWith link "/" then base_origin ++ link else link

/-- The filter applied to a sub-link href
(`app/agents/scraper_agent.py:352`): falsy hrefs and hrefs starting with
`#` or `javascript:` are skipped. -/
def sub_href_allowed (href : String) : Bool :=
  !(href == "" || strStartsWith href "#" || strStartsWith href "javascript:")

/-- Resolution of an allowed sub-link href
(`app/agents/scraper_agent.py:358`): `/`-prefixed (including
protocol-relative `//`) hrefs are prefixed with the listing origin;
hrefs not starting with `http` are joined onto the detail URL; the rest
pass through unchanged. -/
def resolve_sub_href (base_origin detail_url href : String) : String :=
  if strStartsWith href "/" then base_origin ++ href
  else if !(strStartsWith href "http") then urljoinModel detail_url href
  else href

/-- Collection of detail URLs from the items of every page
(`app/agents/scraper_agent.py:270`): each truthy `detail_link` value,
resolved against the listing origin. -/
def collect_detail_urls (pages : List PageData) (base_origin : String) :
    List String :=
  pages.flatMap (fun pd => pd.items.filterMap (fun item =>
    match dlookup item "detail_link" with
    | some (some link) =>
        if link == "" then none else some (resolve_detail_link base_origin link)
    | _ => none))

/-! ## `ScraperAgent._follow_detail_sub_links` (`app/agents/scraper_agent.py:320`) -/

/-- The sub-link candidates one detail page contributes
(`app/agents/scraper_agent.py:345`): for each of the first `maxSub`
sub-link definitions, the first matching element's configured attribute,
filtered and resolved, kept only when same-domain. -/
def sub_link_candidates (parse : ParseFn) (base_origin base_netloc : String)
    (sub_links : List DetailSubLink) (maxSub : Nat)
    (detail_url html : String) : List (String × String × String) :=
  (sub_links.take maxSub).filterMap (fun sld =>
    match (parse html).selOne sld.selector with
    | none => none
    | some el =>
        match el.getAttr sld.attr with
        | none => none
        | some href =>
            if !sub_href_allowed href then none
            else
              let sub := resolve_sub_href base_origin detail_url href
              if urlNetloc sub == base_netloc then
                some (detail_url, sld.label, sub)
              else none)

/-- `_follow_detail_sub_links`: find each plan-defined sub-link on every
fetched detail page, fetch the same-domain targets, and organise the
markup as detail-URL maps. The slice bound
`settings.max_sub_links_per_detail` is read by Python attribute access on
the `Settings` object, which raises `AttributeError` for names
`app/config.py` does not declare; the access happens on the first detail
page with truthy markup. -/
def follow_detail_sub_links (parse : ParseFn) (net : String → Option String)
    (s : Settings) (plan : ScrapingPlan)
    (detail_htmls : List (String × String)) (max_details : Option Nat) :
    Except PyErr (List (String × List (String × String))) :=
  match plan.detail_page_plan with
  | none => .ok []
  | some dpp =>
    if dpp.sub_links.isEmpty then .ok []
    else
      let base_netloc := urlNetloc plan.url
      let base_origin := urlScheme plan.url ++ "://" ++ base_netloc
      let nonempty := detail_htmls.filter (fun p => !(p.2 == ""))
      if nonempty.isEmpty then .ok []
      else
        match s.natAttr "max_sub_links_per_detail" with
        | none => .error .attributeError
        | some maxSub =>
          let urls_to_fetch := nonempty.flatMap (fun p =>
            sub_link_candidates parse base_origin base_netloc dpp.sub_links
              maxSub p.1 p.2)
          if urls_to_fetch.isEmpty then .ok []
          else
            let urls_to_fetch :=
              match max_details with
              | some md => urls_to_fetch.take (md * maxSub)
              | none => urls_to_fetch
            let unique_sub_urls :=
              dedupPreserve (urls_to_fetch.map (fun t => t.2.2))
            let sub_htmls :=
              if plan.requires_javascript then
                unique_sub_urls.filterMap (fun u => (net u).map (fun h => (u, h)))
              else fetch_pages net unique_sub_urls
            .ok (urls_to_fetch.foldl (fun acc t =>
              match dlookup sub_htmls t.2.2 with
              | some h =>
                  if h == "" then acc
                  else
                    match dlookup acc t.1 with
                    | none => acc ++ [(t.1, [(t.2.1, h)])]
                    | some inner => dinsert acc t.1 (dinsert inner t.2.1 h)
              | none => acc) [])

/-! ## `ScraperAgent._enrich_detail_pages` (`app/agents/scraper_agent.py:249`) -/

/-- The detail-page markup map: rendered fetches drop failed URLs, direct
batch fetches record `""` for them. -/
def detail_fetch_map (net : String → Option String) (requires_javascript : Bool)
    (unique_urls : List String) : List (String × String) :=
  if requires_javascript then
    unique_urls.filterMap (fun u => (net u).map (fun h => (u, h)))
  else fetch_pages net unique_urls

/-- `_enrich_detail_pages`: collect, cap, deduplicate and fetch the detail
URLs, merge the one resulting map into every page, then follow sub-links
when the plan defines them. -/
def enrich_detail_pages (parse : ParseFn) (net : String → Option String)
    (s : Settings) (pages : List PageData) (plan : ScrapingPlan)
    (max_details : Option Nat) : Except PyErr (List PageData) :=
  match plan.target.detail_link_selector with
  | none => .ok pages
  | some dls =>
    if dls == "" then .ok pages
    else
      let base_origin := urlScheme plan.url ++ "://" ++ urlNetloc plan.url
      let all_detail_urls := collect_detail_urls pages base_origin
      if all_detail_urls.isEmpty then .ok pages
      else
        let all_detail_urls := capOpt max_details all_detail_urls
        let unique_urls := dedupPreserve all_detail_urls
        let detail_htmls := detail_fetch_map net plan.requires_javascript unique_urls
        let pages := pages.map (fun pd =>
          { pd with detail_pages := dupdate pd.detail_pages detail_htmls })
        match plan.detail_page_plan with
        | some dpp =>
            if !dpp.sub_links.isEmpty then
              match follow_detail_sub_links parse net s plan detail_htmls max_details with
              | .error e => .error e
              | .ok sub_link_data =>
                  .ok (pages.map (fun pd =>
                    { pd with detail_sub_pages :=
                        dupdate pd.detail_sub_pages sub_link_data }))
            else .ok pages
        | none => .ok pages

/-! ## `ScraperAgent._enrich_detail_api` (`app/agents/scraper_agent.py:402`) -/

/-- In-place update of the element at one position. -/
def listModify {α : Type} : List α → Nat → (α → α) → List α
  | [], _, _ => []
  | x :: xs, 0, f => f x :: xs
  | x :: xs, n + 1, f => x :: listModify xs n f

/-- `_enrich_detail_api`: build per-item API URLs from the template,
fetch them (failures and non-200 responses silently absent, modelled by
the oracle `netJson`), and attach each response to its page keyed by item
id. -/
def enrich_detail_api (netJson : String → Option Json) (pages : List PageData)
    (plan : ScrapingPlan) (max_details : Option Nat) : List PageData :=
  match plan.detail_api_plan with
  | none => pages
  | some ap =>
    let template := ap.api_url_template
    let api_calls := pages.enum.flatMap (fun pp =>
      pp.2.items.enum.filterMap (fun pi =>
        match dlookup pi.2 "_detail_api_id" with
        | some (some item_id) =>
            if item_id == "" then none
            else some (pp.1, pi.1, item_id, template.replace "{id}" item_id)
        | _ => none))
    if api_calls.isEmpty then pages
    else
      let api_calls := capOpt max_details api_calls
      let unique_urls := dedupPreserve (api_calls.map (fun t => t.2.2.2))
      let api_responses :=
        unique_urls.filterMap (fun u => (netJson u).map (fun j => (u, j)))
      api_calls.foldl (fun pgs t =>
        match dlookup api_responses t.2.2.2 with
        | some resp =>
            listModify pgs t.1 (fun pd =>
              { pd with detail_api_responses :=
                  dinsert pd.detail_api_responses t.2.2.1 resp })
        | none => pgs) pages

/-! ## `ScraperAgent._scrape_static` (`app/agents/scraper_agent.py:94`) -/

/-- The pre-enrichment page list of `_scrape_static`: batch-fetch the
resolved URLs (failures becoming `""`) and extract items from each
non-empty markup, skipping pages whose markup is empty. -/
def static_pages (parse : ParseFn) (net : String → Option String)
    (s : Settings) (plan : ScrapingPlan) : List PageData :=
  (fetch_pages net (resolve_page_urls s plan)).filterMap (fun p =>
    if p.2 == "" then none
    else some { url := p.1
                items := extract_items parse p.2 plan.target plan.detail_api_plan
                detail_pages := []
                detail_sub_pages := []
                detail_api_responses := [] })

/-- `_scrape_static`: resolve the page URLs, batch-fetch them, extract,
then run both enrichment passes. -/
def scrape_static (parse : ParseFn) (net : String → Option String)
    (netJson : String → Option Json) (s : Settings) (plan : ScrapingPlan) :
    Except PyErr (List PageData) :=
  match enrich_detail_pages parse net s (static_pages parse net s plan) plan none with
  | .error e => .error e
  | .ok pages => .ok (enrich_detail_api netJson pages plan none)

/-! ## `ScraperAgent._scrape_api` (`app/agents/scraper_agent.py:194`) -/

/-- One response of the JSON endpoint: an HTTP status and the result of
`resp.json()` (`none` = the body failed to parse). -/
structure ApiResp where
  status : Nat
  body : Option Json

/-- The common wrapper keys tried on a dict response
(`app/agents/scraper_agent.py:219`). -/
def apiWrapperKeys : List String :=
  ["data", "items", "results", "exhibitors", "records", "list"]

/-- The first wrapper key (in the fixed order) present in the object with
a list value. -/
def firstWrapperList (fields : List (String × Json)) : Option (List Json) :=
  (apiWrapperKeys.filterMap (fun k =>
    match dlookup fields k with
    | some (.arr xs) => some xs
    | _ => none)).head?

/-- The `items_raw` computation (`app/agents/scraper_agent.py:214`): a
list root is taken as is; on a dict, the first list-valued wrapper key is
taken, but when that list is empty (or no wrapper key matches) the whole
object becomes the single item; any other root leaves `items_raw` empty,
which stops the loop. -/
def items_raw_of (data : Json) : List Json :=
  match data with
  | .arr xs => xs
  | .obj fields =>
      match firstWrapperList fields with
      | some xs => if xs.isEmpty then [Json.obj fields] else xs
      | none => [Json.obj fields]
  | _ => []

/-- The item flattener (`app/agents/scraper_agent.py:229`):
`{k: str(v) if v is not None else None for k, v in item.items()}` —
`item.items()` raises `AttributeError` when the item is not a dict. -/
def flattenItem (j : Json) : Except PyErr (List (String × Option String)) :=
  match j with
  | .obj fields =>
      .ok (fields.map (fun p =>
        (p.1, match p.2 with
              | Json.null => none
              | v => some v.pyStr)))
  | _ => .error .attributeError

/-- The body of the `_scrape_api` while-loop, recursing on the number of
remaining pages below the `max_pages_per_crawl` ceiling. `server` maps the
page index sent as the `page` parameter to the endpoint's response. -/
def scrape_api_loop (server : Nat → ApiResp) (endpoint : String)
    (max_items : Option Nat) :
    Nat → Nat → Nat → List PageData → Except PyErr (List PageData)
  | 0, _, _, pages => .ok pages
  | remaining + 1, page_num, total_collected, pages =>
    let resp := server page_num
    if resp.status ≠ 200 then .ok pages
    else
      match resp.body with
      | none => .ok pages
      | some data =>
        let items_raw := items_raw_of data
        if items_raw.isEmpty then .ok pages
        else
          match items_raw.mapM flattenItem with
          | .error e => .error e
          | .ok items =>
            let items :=
              match max_items with
              | some mi => items.take (mi - total_collected)
              | none => items
            let pages := pages ++
              [{ url := endpoint ++ "?page=" ++ toString page_num
                 items := items
                 detail_pages := []
                 detail_sub_pages := []
                 detail_api_responses := [] }]
            let total_collected := total_collected + items.length
            match max_items with
            | some mi =>
                if mi ≤ total_collected then .ok pages
                else scrape_api_loop server endpoint max_items remaining
                  (page_num + 1) total_collected pages
            | none => scrape_api_loop server endpoint max_items remaining
                (page_num + 1) total_collected pages

/-- `_scrape_api`: page through the JSON endpoint starting at page index
0, stopping on a non-200 response, an unparsable body, an empty item set,
or the `max_pages_per_crawl` ceiling. -/
def scrape_api (s : Settings) (server : Nat → ApiResp) (endpoint : String)
    (max_items : Option Nat) : Except PyErr (List PageData) :=
  scrape_api_loop server endpoint max_items s.max_pages_per_crawl 0 0 []

/-! ## `_score_api_response` (`app/utils/browser.py:91`) -/

/-- `_NOISE_URL_FRAGMENTS` (`app/utils/browser.py:92`); a Python set whose
iteration order is irrelevant to the early-return test. -/
def noiseUrlFragments : List String :=
  ["config.json", "layout", "/chat", "ichat", "analytics", "tracking",
   "pixel", "beacon", "metrics", "/ads/", "consent", "cookie", "gdpr",
   "fonts", "icons", "socket.io", "heartbeat", "cdn-cgi", "recaptcha",
   "gtag", "gtm", "hotjar", "sentry", "newrelic", "datadog"]

/-- `_DETAIL_DATA_KEYS` (`app/utils/browser.py:100`). -/
def detailDataKeys : List String :=
  ["name", "address", "phone", "email", "website", "description",
   "company", "contact", "fax", "city", "country", "postal", "zip",
   "street", "url", "profile", "social", "category", "product",
   "brand", "booth", "stand", "hall", "exhibitor", "telephone"]

/-- The indicative URL keywords (`app/utils/browser.py:134`). -/
def urlBonusKeywords : List String :=
  ["exhibitor", "profile", "detail", "company", "seller", "vendor"]

/-- `all_keys.add(...)`: Python set insertion, modelled order-preserving. -/
def setAdd (l : List String) (x : String) : List String :=
  if l.any (fun y => y == x) then l else l ++ [x]

/-- The `all_keys` set (`app/utils/browser.py:121`): every top-level key,
and the keys of every dict-valued field, lowercased. -/
def allKeysOf (body : List (String × Json)) : List String :=
  body.foldl (fun acc p =>
    let acc := setAdd acc (strLower p.1)
    match p.2 with
    | .obj fields => fields.foldl (fun a q => setAdd a (strLower q.1)) acc
    | _ => acc) []

/-- `_score_api_response`: `-1000` as soon as any noise fragment occurs in
the lowercased URL; otherwise 10 per collected key containing an
indicative vocabulary word, plus 15 per indicative keyword present in the
URL, plus the number of top-level keys. -/
def score_api_response (api_url : String) (body : List (String × Json)) : Int :=
  let url_lower := strLower api_url
  if noiseUrlFragments.any (fun frag => strContains url_lower frag) then -1000
  else
    let all_keys := allKeysOf body
    let detail_hits :=
      (all_keys.filter (fun k => detailDataKeys.any (fun dk => strContains k dk))).length
    let url_bonus :=
      15 * (urlBonusKeywords.filter (fun kw => strContains url_lower kw)).length
    (detail_hits * 10 : Int) + url_bonus + body.length

/-! ## Reference formulations written from the specification's words -/

/-- Modelled from the spec: the lowercased names of all top-level and
one-level-nested keys of the body. -/
def spec_key_names (body : List (String × Json)) : List String :=
  (body.map (fun p => strLower p.1)) ++
    body.flatMap (fun p =>
      match p.2 with
      | Json.obj fields => fields.map (fun q => strLower q.1)
      | _ => [])

/-- Modelled from the spec: the count of distinct lowercased
top-level-or-one-level-nested key names that contain an indicative
vocabulary word. -/
def spec_indicative_key_count (body : List (String × Json)) : Nat :=
  ((spec_key_names body).dedup.filter
    (fun k => detailDataKeys.any (fun dk => strContains k dk))).length

/-- Modelled from the spec: the number of indicative keywords occurring in
the URL. -/
def spec_url_keyword_count (api_url : String) : Nat :=
  (urlBonusKeywords.filter (fun kw => strContains (strLower api_url) kw)).length

/-- Modelled from the spec: the reference scoring formula — a fixed very
negative value on any noise substring, else
`10 × indicativeKeys + 15 × urlKeywords + bodyKeyCount`. -/
def spec_score (api_url : String) (body : List (String × Json)) : Int :=
  if noiseUrlFragments.any (fun frag => strContains (strLower api_url) frag) then
    -1000
  else
    10 * (spec_indicative_key_count body : Int) +
      15 * (spec_url_keyword_count api_url : Int) + body.length

/-- Modelled from the spec (claim C8's wording): items come from the
response's array root, else from the first list-valued field among the
fixed wrapper names, else the whole object is one item. -/
def claim_items_of (data : Json) : List Json :=
  match data with
  | .arr xs => xs
  | .obj fields =>
      match firstWrapperList fields with
      | some xs => xs
      | none => [Json.obj fields]
  | _ => []

/-! ## Dictionary lemmas -/

theorem dlookup_dinsert {β : Type} (d : List (String × β)) (k : String) (v : β)
    (q : String) :
    dlookup (dinsert d k v) q = if q = k then some v else dlookup d q := by
  induction d with
  | nil =>
      by_cases h : q = k
      · subst h; simp [dinsert, dlookup]
      · have hkq : (k == q) = false := beq_eq_false_iff_ne.mpr (Ne.symm h)
        simp [dinsert, dlookup, h, hkq]
  | cons p d ih =>
      by_cases hpk : p.1 = k
      · have hb : (p.1 == k) = true := beq_iff_eq.mpr hpk
        by_cases h : q = k
        · subst h
          simp [dinsert, dlookup, hb]
        · have h1 : (k == q) = false := beq_eq_false_iff_ne.mpr (Ne.symm h)
          have h2 : (p.1 == q) = false := by
            rw [hpk]; exact h1
          simp [dinsert, dlookup, hb, h1, h2, h]
      · have hb : (p.1 == k) = false := beq_eq_false_iff_ne.mpr hpk
        have hstep : dinsert (p :: d) k v = p :: dinsert d k v := by
          simp [dinsert, hb]
        by_cases hpq : p.1 = q
        · have h : ¬q = k := fun hq => hpk (hpq.trans hq)
          have h2 : (p.1 == q) = true := beq_iff_eq.mpr hpq
          rw [hstep]
          simp [dlookup, h2, h]
        · have h2 : (p.1 == q) = false := beq_eq_false_iff_ne.mpr hpq
          have l1 : dlookup (p :: dinsert d k v) q = dlookup (dinsert d k v) q := by
            simp [dlookup, h2]
          have l2 : dlookup (p :: d) q = dlookup d q := by
            simp [dlookup, h2]
          rw [hstep, l1, ih, l2]

theorem dkeys_subset_dinsert {β : Type} (d : List (String × β)) (k : String)
    (v : β) : dkeys d ⊆ dkeys (dinsert d k v) := by
  induction d with
  | nil => simp [dinsert, dkeys]
  | cons p d ih =>
      by_cases hpk : p.1 = k
      · have hb : (p.1 == k) = true := beq_iff_eq.mpr hpk
        intro x hx
        simp only [dkeys, dinsert, hb, if_true, List.map_cons, List.mem_cons] at hx ⊢
        rcases hx with h | h
        · exact Or.inl (h.trans hpk)
        · exact Or.inr h
      · have hb : (p.1 == k) = false := beq_eq_false_iff_ne.mpr hpk
        intro x hx
        simp only [dkeys, dinsert, hb, if_false, Bool.false_eq_true,
          List.map_cons, List.mem_cons] at hx ⊢
        rcases hx with h | h
        · exact Or.inl h
        · exact Or.inr (ih h)

theorem dkeys_subset_dupdate {β : Type} (d e : List (String × β)) :
    dkeys d ⊆ dkeys (dupdate d e) := by
  induction e generalizing d with
  | nil => simp [dupdate]
  | cons p e ih =>
      intro x hx
      have h1 := dkeys_subset_dinsert d p.1 p.2 hx
      have h2 := ih (dinsert d p.1 p.2) h1
      simpa [dupdate] using h2

theorem dhasKey_of_dlookup {β : Type} {d : List (String × β)} {q : String}
    {v : β} (h : dlookup d q = some v) : dhasKey d q = true := by
  induction d with
  | nil => simp [dlookup] at h
  | cons p d ih =>
      by_cases hpq : p.1 = q
      · have hb : (p.1 == q) = true := beq_iff_eq.mpr hpq
        simp [dhasKey, List.any_cons, hb]
      · have hb : (p.1 == q) = false := beq_eq_false_iff_ne.mpr hpq
        have h' : dlookup d q = some v := by simpa [dlookup, hb] using h
        have := ih h'
        simp only [dhasKey, List.any_cons, hb, Bool.false_or]
        simpa [dhasKey] using this

/-! ## Claim C1 — dual-path page fetcher -/

/-- C1: for every URL-world, the direct fetch fails with `FetchError`
exactly on a network error or a non-2xx status; `_fetch_html` makes at
most one rendering-driver attempt — exactly one when the direct attempt
threw, returned fewer than 2000 characters, or returned markup containing
the `<noscript>` marker, and none otherwise, in which case the direct
markup is returned as is. -/
theorem fetcher_fallback_retries_once (w : FetchWorld) :
    (fetch_page w.direct = Except.error PyErr.fetchError ↔
      (w.direct = NetResult.err ∨
        ∃ st txt, w.direct = NetResult.resp st txt ∧ (st < 200 ∨ 300 ≤ st))) ∧
    (fetch_html w).2 ≤ 1 ∧
    (∀ e, fetch_page w.direct = Except.error e → fetch_html w = (w.js, 1)) ∧
    (∀ html, fetch_page w.direct = Except.ok html →
      ((html.length < 2000 ∨ strContains (strLower html) "<noscript>" = true) →
        fetch_html w = (w.js, 1)) ∧
      (2000 ≤ html.length → strContains (strLower html) "<noscript>" = false →
        fetch_html w = (Except.ok html, 0))) := by
  obtain ⟨d, js⟩ := w
  cases d with
  | err =>
      refine ⟨by simp [fetch_page], ?_, ?_, ?_⟩
      · simp [fetch_html, fetch_page, needsJsFallback]
      · intro e _
        simp [fetch_html, fetch_page, needsJsFallback]
      · intro html h
        simp [fetch_page] at h
  | resp st txt =>
      by_cases hs : (200 ≤ st && st < 300) = true
      · have hs' : 200 ≤ st ∧ st < 300 := by simpa using hs
        refine ⟨?_, ?_, ?_, ?_⟩
        · constructor
          · intro h; simp [fetch_page, hs] at h
          · rintro (h | ⟨st', txt', heq, hbad⟩)
            · cases h
            · cases heq; omega
        · simp only [fetch_html]
          split <;> simp
        · intro e he; simp [fetch_page, hs] at he
        · intro html hh
          have htxt : txt = html := by simpa [fetch_page, hs] using hh
          subst htxt
          constructor
          · intro hbad
            have hn : needsJsFallback (fetch_page (NetResult.resp st txt)) = true := by
              simp [fetch_page, hs, needsJsFallback]
              rcases hbad with h | h
              · exact Or.inl h
              · exact Or.inr h
            simp [fetch_html, hn]
          · intro hlen hcon
            have hd : fetch_page (NetResult.resp st txt) = Except.ok txt := by
              simp [fetch_page, hs]
            have hn : needsJsFallback (Except.ok txt) = false := by
              simp [needsJsFallback, hcon]
              omega
            simp [fetch_html, hd, hn]
      · have hs' : st < 200 ∨ 300 ≤ st := by
          have := hs
          simp [Bool.and_eq_true] at this
          omega
        refine ⟨?_, ?_, ?_, ?_⟩
        · constructor
          · intro _; exact Or.inr ⟨st, txt, rfl, hs'⟩
          · intro _; simp [fetch_page, hs]
        · simp [fetch_html, fetch_page, hs, needsJsFallback]
        · intro e _
          simp [fetch_html, fetch_page, hs, needsJsFallback]
        · intro html hh
          simp [fetch_page, hs] at hh

/-- C1 witness: a world whose direct response is a 200 with a short body
takes the rendering retry and returns its markup. -/
theorem fetcher_fallback_retries_once_witness :
    fetch_html { direct := NetResult.resp 200 "<html></html>",
                 js := Except.ok "<html>rendered</html>" } =
      (Except.ok "<html>rendered</html>", 1) :=
  ((fetcher_fallback_retries_once
      { direct := NetResult.resp 200 "<html></html>",
        js := Except.ok "<html>rendered</html>" }).2.2.2 "<html></html>"
    rfl).1 (Or.inl (by decide))

/-! ## Concrete fixtures -/

/-- A parse oracle for documents with no matching containers. -/
def emptyParse : ParseFn := fun _ => { sel := fun _ => [], selOne := fun _ => none }

/-- A network oracle on which every fetch raises. -/
def noNet : String → Option String := fun _ => none

/-- A JSON network oracle on which every fetch raises. -/
def noNetJson : String → Option Json := fun _ => none

/-- A minimal target: `.card` containers with one `name` field. -/
def basicTarget : ScrapingTarget :=
  { item_container_selector := ".card"
    field_selectors := [("name", "h3")]
    field_attributes := []
    detail_link_selector := none
    detail_button_selector := none }

/-- A static plan with pagination NONE and a precomputed URL list. -/
def planNoneWithUrls : ScrapingPlan :=
  { url := "https://ex.com/list"
    requires_javascript := false
    pagination := PaginationStrategy.NONE
    pagination_selector := none
    pagination_urls := ["https://ex.com/p1", "https://ex.com/p2"]
    alphabet_tab_selector := none
    api_endpoint := none
    api_params := []
    target := basicTarget
    detail_page_fields := []
    detail_page_field_attributes := []
    detail_page_plan := none
    detail_api_plan := none
    wait_selector := none
    notes := "" }

/-- A static plan with pagination NONE and no precomputed URL list. -/
def planNoneSingle : ScrapingPlan :=
  { planNoneWithUrls with pagination_urls := [] }

/-! ## Claim C2 — pagination NONE -/

/-- C2 counterexample: a plan with strategy NONE and a precomputed URL
list makes the scraper fetch that list, not the single plan URL — the
precomputed list is not ignored. -/
theorem pagination_none_uses_url_list_counterexample :
    planNoneWithUrls.pagination = PaginationStrategy.NONE ∧
    resolve_page_urls defaultSettings planNoneWithUrls =
      ["https://ex.com/p1", "https://ex.com/p2"] ∧
    resolve_page_urls defaultSettings planNoneWithUrls ≠ [planNoneWithUrls.url] := by
  refine ⟨rfl, rfl, ?_⟩
  decide

/-- C2 amended: under pagination NONE the scraper fetches exactly the plan
URL only when the plan carries no precomputed URL list; otherwise it
fetches the precomputed list capped at `max_pages_per_crawl` (the strategy
is not consulted by URL resolution). -/
theorem pagination_none_amended (s : Settings) (plan : ScrapingPlan)
    (hp : plan.pagination = PaginationStrategy.NONE) :
    (plan.pagination_urls = [] → resolve_page_urls s plan = [plan.url]) ∧
    (plan.pagination_urls ≠ [] →
      resolve_page_urls s plan = plan.pagination_urls.take s.max_pages_per_crawl) := by
  constructor
  · intro h; simp [resolve_page_urls, h]
  · intro h
    have : plan.pagination_urls.isEmpty = false := by
      simpa [List.isEmpty_iff] using h
    simp [resolve_page_urls, this]

/-- C2 witness: the single-URL branch at a concrete NONE plan. -/
theorem pagination_none_amended_witness :
    resolve_page_urls defaultSettings planNoneSingle = [planNoneSingle.url] :=
  (pagination_none_amended defaultSettings planNoneSingle rfl).1 rfl

/-! ## Claim C3 — fetch-failure fatality -/

/-- C3 counterexample: with a network on which every fetch (the plan's
primary page included) raises, the static scraping stage completes with
an empty result instead of propagating the failure. -/
theorem primary_fetch_failure_not_fatal_counterexample :
    noNet planNoneSingle.url = none ∧
    scrape_static emptyParse noNet noNetJson defaultSettings planNoneSingle =
      Except.ok [] := by
  exact ⟨rfl, rfl⟩

/-- The enrichment pass always succeeds when the plan configures no
detail sub-links (sub-link traversal is the only raising step; see C5). -/
theorem enrich_detail_pages_isOk (parse : ParseFn) (net : String → Option String)
    (s : Settings) (pages : List PageData) (plan : ScrapingPlan)
    (md : Option Nat)
    (hsub : plan.detail_page_plan = none ∨
      ∀ dpp, plan.detail_page_plan = some dpp → dpp.sub_links = []) :
    ∃ pages', enrich_detail_pages parse net s pages plan md = Except.ok pages' := by
  unfold enrich_detail_pages
  cases hdl : plan.target.detail_link_selector with
  | none => exact ⟨pages, rfl⟩
  | some dls =>
      by_cases h1 : (dls == "") = true
      · simp only [h1, if_true]
        exact ⟨pages, rfl⟩
      · simp only [h1, if_false, Bool.false_eq_true]
        by_cases h2 : (collect_detail_urls pages
            (urlScheme plan.url ++ "://" ++ urlNetloc plan.url)).isEmpty = true
        · simp only [h2, if_true]
          exact ⟨pages, rfl⟩
        · simp only [h2, if_false, Bool.false_eq_true]
          cases hdpp : plan.detail_page_plan with
          | none => exact ⟨_, rfl⟩
          | some dpp =>
              have hsl : dpp.sub_links = [] := by
                rcases hsub with h | h
                · rw [hdpp] at h; cases h
                · exact h dpp hdpp
              simp only [hsl, List.isEmpty_nil, Bool.not_true, if_false,
                Bool.false_eq_true]
              exact ⟨_, rfl⟩

/-- The URLs of the pre-enrichment pages are exactly the (deduplicated)
resolved URLs whose fetch produced non-empty markup. -/
theorem static_pages_urls (parse : ParseFn) (net : String → Option String)
    (s : Settings) (plan : ScrapingPlan) :
    (static_pages parse net s plan).map (fun pd => pd.url) =
      (dedupPreserve (resolve_page_urls s plan)).filter
        (fun u => !((net u).getD "" == "")) := by
  unfold static_pages fetch_pages
  generalize dedupPreserve (resolve_page_urls s plan) = l
  induction l with
  | nil => simp
  | cons u l ih =>
      simp only [List.map_cons, List.filterMap_cons, List.filter_cons]
      by_cases h : ((net u).getD "" == "") = true
      · rw [if_pos h]
        simp only [h, Bool.not_true, if_false, Bool.false_eq_true]
        exact ih
      · rw [if_neg h]
        have hb : (!((net u).getD "" == "")) = true := by
          simp only [Bool.not_eq_true'] at h ⊢
          simpa using h
        simp only [hb, if_true, List.map_cons]
        rw [ih]

/-- C3 amended: in the static path no fetch failure is fatal — neither an
enrichment fetch nor the fetch of the plan's primary page (provided the
plan configures no detail sub-links, whose traversal crashes on a missing
setting independently of the network; see C5): the stage always returns a
result, in which each failed page is simply absent and each successfully
fetched page present. -/
theorem fetch_failures_never_fatal (parse : ParseFn)
    (net : String → Option String) (netJson : String → Option Json)
    (s : Settings) (plan : ScrapingPlan)
    (hsub : plan.detail_page_plan = none ∨
      ∀ dpp, plan.detail_page_plan = some dpp → dpp.sub_links = []) :
    (∃ pages, scrape_static parse net netJson s plan = Except.ok pages) ∧
    (static_pages parse net s plan).map (fun pd => pd.url) =
      (dedupPreserve (resolve_page_urls s plan)).filter
        (fun u => !((net u).getD "" == "")) := by
  refine ⟨?_, static_pages_urls parse net s plan⟩
  obtain ⟨pages', hok⟩ := enrich_detail_pages_isOk parse net s
    (static_pages parse net s plan) plan none hsub
  refine ⟨enrich_detail_api netJson pages' plan none, ?_⟩
  simp only [scrape_static, hok]

/-- C3 amended witness: a concrete plan and failing network on which the
stage still returns a result. -/
theorem fetch_failures_never_fatal_witness :
    ∃ pages, scrape_static emptyParse noNet noNetJson defaultSettings
      planNoneWithUrls = Except.ok pages :=
  (fetch_failures_never_fatal emptyParse noNet noNetJson defaultSettings
    planNoneWithUrls (Or.inl rfl)).1

/-! ## Claim C4 — href resolution -/

/-- A listing page whose single item carries a `detail_link` of `#contact`. -/
def pageWithHashLink : PageData :=
  { url := "https://ex.com/list"
    items := [[("detail_link", some "#contact")]]
    detail_pages := []
    detail_sub_pages := []
    detail_api_responses := [] }

/-- A plan whose target has a detail-link selector. -/
def planWithDetailSelector : ScrapingPlan :=
  { planNoneSingle with
      target := { basicTarget with detail_link_selector := some "a.detail" } }

/-- A network oracle serving markup `"H"` for every URL. -/
def constNet : String → Option String := fun _ => some "H"

/-- C4 counterexample: in detail-link resolution an href beginning `#` is
followed — it reaches the fetch list unchanged and its fetch result is
recorded — contradicting that `#...` hrefs never produce a fetch. -/
theorem hash_href_is_followed_counterexample :
    collect_detail_urls [pageWithHashLink] (baseOrigin "https://ex.com/list") =
      ["#contact"] ∧
    enrich_detail_pages emptyParse constNet defaultSettings [pageWithHashLink]
        planWithDetailSelector none =
      Except.ok [{ pageWithHashLink with detail_pages := [("#contact", "H")] }] := by
  exact ⟨rfl, rfl⟩

/-- C4 amended: in sub-link resolution, `#...` and `javascript:...` hrefs
are never followed, hrefs beginning `/` — protocol-relative `//...` hrefs
included — are resolved against the listing's scheme+host, and absolute
`http...` hrefs pass through unchanged. In detail-link resolution, hrefs
beginning `/` (again including `//...`) are resolved against the
scheme+host and every other href — `#...` and `javascript:...` included —
passes through unchanged and is followed. -/
theorem href_resolution_amended (origin detail_url h : String) :
    (strStartsWith h "#" = true ∨ strStartsWith h "javascript:" = true →
      sub_href_allowed h = false) ∧
    (strStartsWith h "/" = true →
      resolve_detail_link origin h = origin ++ h ∧
      resolve_sub_href origin detail_url h = origin ++ h) ∧
    (strStartsWith h "/" = false → resolve_detail_link origin h = h) ∧
    (strStartsWith h "/" = false → strStartsWith h "http" = true →
      resolve_sub_href origin detail_url h = h) := by
  refine ⟨?_, ?_, ?_, ?_⟩
  · rintro (hh | hh) <;> simp [sub_href_allowed, hh]
  · intro hh
    exact ⟨by simp [resolve_detail_link, hh], by simp [resolve_sub_href, hh]⟩
  · intro hh
    simp [resolve_detail_link, hh]
  · intro hh hhttp
    simp [resolve_sub_href, hh, hhttp]

/-- C4 amended witness: a protocol-relative href is origin-prefixed in
both resolutions, and a `javascript:` href is rejected by the sub-link
filter. -/
theorem href_resolution_amended_witness :
    resolve_detail_link "https://ex.com" "//cdn.ex.com/x" =
      "https://ex.com//cdn.ex.com/x" ∧
    sub_href_allowed "javascript:void(0)" = false :=
  ⟨((href_resolution_amended "https://ex.com" "https://ex.com/d"
      "//cdn.ex.com/x").2.1 (by decide)).1,
   (href_resolution_amended "https://ex.com" "https://ex.com/d"
      "javascript:void(0)").1 (Or.inr (by decide))⟩

/-! ## Claim C5 — sub-link traversal scenario -/

/-- The sub-link scenario plan: one configured sub-link
(`products` / `a.products` / `href`). -/
def planWithSubLink : ScrapingPlan :=
  { planWithDetailSelector with
      detail_page_plan := some
        { field_selectors := []
          field_attributes := []
          sub_links := [{ label := "products", selector := "a.products",
                          attr := "href" }] } }

/-- A parse oracle for a detail page containing an anchor matching
`a.products` with href `/company/42/products`. -/
def parseWithProductsAnchor : ParseFn := fun _ =>
  { sel := fun _ => []
    selOne := fun sel =>
      if sel == "a.products" then
        some { text := "Products", attrs := [("href", "/company/42/products")] }
      else none }

/-- C5: the code cannot execute the scenario — slicing the sub-link list
reads `settings.max_sub_links_per_detail`, an attribute `app/config.py`
never declares, so sub-link traversal raises `AttributeError` before any
sub-link fetch instead of fetching `<origin>/company/42/products`. -/
theorem sub_link_scenario_crashes_on_missing_setting :
    defaultSettings.natAttr "max_sub_links_per_detail" = none ∧
    follow_detail_sub_links parseWithProductsAnchor constNet defaultSettings
        planWithSubLink [("https://ex.com/d1", "<detail page>")] none =
      Except.error PyErr.attributeError := by
  exact ⟨rfl, rfl⟩

/-! ## Claim C6 — field extraction null/empty semantics -/

/-- A fold over field selectors leaves keys outside the selector list
untouched. -/
theorem extract_fold_lookup_not_mem (t : ScrapingTarget) (c : Container)
    (fs : List (String × String)) (acc : List (String × Option String))
    (f : String) (hf : f ∉ fs.map Prod.fst) :
    dlookup (fs.foldl (fun a p => dinsert a p.1 (fieldValue t c p.1 p.2)) acc) f =
      dlookup acc f := by
  induction fs generalizing acc with
  | nil => rfl
  | cons g rest ih =>
      simp only [List.map_cons, List.mem_cons] at hf
      push_neg at hf
      simp only [List.foldl_cons]
      rw [ih _ hf.2, dlookup_dinsert, if_neg hf.1]

/-- The fold over field selectors assigns each configured field its
`fieldValue`. -/
theorem extract_fold_lookup_mem (t : ScrapingTarget) (c : Container)
    (fs : List (String × String)) (acc : List (String × Option String))
    (f s : String) (hmem : (f, s) ∈ fs) (hnodup : (fs.map Prod.fst).Nodup) :
    dlookup (fs.foldl (fun a p => dinsert a p.1 (fieldValue t c p.1 p.2)) acc) f =
      some (fieldValue t c f s) := by
  induction fs generalizing acc with
  | nil => cases hmem
  | cons g rest ih =>
      simp only [List.map_cons, List.nodup_cons] at hnodup
      rcases List.mem_cons.mp hmem with heq | hrest
      · cases heq
        simp only [List.foldl_cons]
        rw [extract_fold_lookup_not_mem t c rest _ f hnodup.1,
          dlookup_dinsert, if_pos rfl]
      · simp only [List.foldl_cons]
        exact ih _ hrest hnodup.2

/-- C6: every configured field is present in the extracted record — with
value `null` when its selector matches nothing, and with the element's
trimmed visible text (hence `""`, never `null`, for a matched but
textually empty element) when it matches and no attribute override is
configured. -/
theorem extracted_field_null_or_text (t : ScrapingTarget)
    (dap : Option DetailApiPlan) (c : Container) (f s : String)
    (hmem : (f, s) ∈ t.field_selectors)
    (hnodup : (t.field_selectors.map Prod.fst).Nodup) :
    (c.selOne s = none → dlookup (extract_record t dap c) f = some none) ∧
    (∀ el, c.selOne s = some el → dlookup t.field_attributes f = none →
      dlookup (extract_record t dap c) f = some (some el.text)) ∧
    (dlookup (extract_record t dap c) f).isSome = true := by
  have hfold : dlookup (t.field_selectors.foldl
      (fun a p => dinsert a p.1 (fieldValue t c p.1 p.2)) []) f =
      some (fieldValue t c f s) :=
    extract_fold_lookup_mem t c t.field_selectors [] f s hmem hnodup
  have hmain : dlookup (extract_record t dap c) f = some (fieldValue t c f s) := by
    unfold extract_record
    have step2 : ∀ (d : List (String × Option String)),
        dlookup d f = some (fieldValue t c f s) →
        dlookup (match t.detail_link_selector with
          | some dls =>
              if dls == "" || dhasKey d "detail_link" then d
              else
                match c.selOne dls with
                | some link_el => dinsert d "detail_link" (link_el.getAttr "href")
                | none => d
          | none => d) f = some (fieldValue t c f s) := by
      intro d hd
      cases t.detail_link_selector with
      | none => exact hd
      | some dls =>
          by_cases hguard : (dls == "" || dhasKey d "detail_link") = true
          · simp only [hguard, if_true]; exact hd
          · simp only [hguard, if_false, Bool.false_eq_true]
            cases c.selOne dls with
            | none => exact hd
            | some link_el =>
                rw [dlookup_dinsert]
                have hne : ¬f = "detail_link" := by
                  intro hf
                  apply hguard
                  subst hf
                  simp [dhasKey_of_dlookup hd, Bool.or_true]
                rw [if_neg hne]; exact hd
    have step3 : ∀ (d : List (String × Option String)),
        dlookup d f = some (fieldValue t c f s) →
        dlookup (match dap with
          | some ap =>
              if dhasKey d "_detail_api_id" then d
              else
                match c.selOne ap.id_selector with
                | some id_el =>
                    let raw_id :=
                      match ap.id_attribute with
                      | some ia => if ia == "" then id_el.text else id_el.getAttrD ia
                      | none => id_el.text
                    let raw_id :=
                      match ap.id_regex with
                      | some rex =>
                          if raw_id == "" then raw_id
                          else match rex raw_id with
                               | some g => g
                               | none => raw_id
                      | none => raw_id
                    dinsert d "_detail_api_id"
                      (if raw_id == "" then none else some raw_id)
                | none => d
          | none => d) f = some (fieldValue t c f s) := by
      intro d hd
      cases dap with
      | none => exact hd
      | some ap =>
          by_cases hguard : dhasKey d "_detail_api_id" = true
          · simp only [hguard, if_true]; exact hd
          · simp only [hguard, if_false, Bool.false_eq_true]
            cases c.selOne ap.id_selector with
            | none => exact hd
            | some id_el =>
                simp only []
                rw [dlookup_dinsert]
                have hne : ¬f = "_detail_api_id" := by
                  intro hf
                  apply hguard
                  subst hf
                  exact dhasKey_of_dlookup hd
                rw [if_neg hne]; exact hd
    exact step3 _ (step2 _ hfold)
  refine ⟨?_, ?_, ?_⟩
  · intro hsel
    rw [hmain]
    simp [fieldValue, hsel]
  · intro el hsel hattr
    rw [hmain]
    simp [fieldValue, hsel, hattr]
  · rw [hmain]; rfl

/-- The C6 witness target: two fields, one matched by an empty-text
element, one matched by nothing. -/
def twoFieldTarget : ScrapingTarget :=
  { item_container_selector := ".card"
    field_selectors := [("name", "h3"), ("booth", "span.booth")]
    field_attributes := []
    detail_link_selector := none
    detail_button_selector := none }

/-- A container whose `h3` has empty visible text and which has no
`span.booth` descendant. -/
def emptyTextContainer : Container :=
  { selOne := fun sel =>
      if sel == "h3" then some { text := "", attrs := [] } else none }

/-- C6 witness: the matched-but-empty field yields `some ""`, the
unmatched field is present with value `none`. -/
theorem extracted_field_null_or_text_witness :
    dlookup (extract_record twoFieldTarget none emptyTextContainer) "name" =
      some (some "") ∧
    dlookup (extract_record twoFieldTarget none emptyTextContainer) "booth" =
      some none :=
  ⟨(extracted_field_null_or_text twoFieldTarget none emptyTextContainer
      "name" "h3" (by decide) (by decide)).2.1
        { text := "", attrs := [] } rfl rfl,
   (extracted_field_null_or_text twoFieldTarget none emptyTextContainer
      "booth" "span.booth" (by decide) (by decide)).1 rfl⟩

/-! ## Claim C7 — API-response scoring -/

theorem mem_setAdd (l : List String) (x y : String) :
    y ∈ setAdd l x ↔ y ∈ l ∨ y = x := by
  unfold setAdd
  by_cases h : l.any (fun z => z == x) = true
  · have hx : x ∈ l := by
      simpa [List.any_eq_true] using h
    simp only [h, if_true]
    constructor
    · exact Or.inl
    · rintro (hy | hy)
      · exact hy
      · exact hy ▸ hx
  · simp [h, List.mem_append]

theorem nodup_setAdd (l : List String) (x : String) (h : l.Nodup) :
    (setAdd l x).Nodup := by
  unfold setAdd
  by_cases hx : l.any (fun z => z == x) = true
  · simpa [hx] using h
  · have hnx : x ∉ l := by
      intro hmem
      exact absurd (by simpa [List.any_eq_true] using hmem) hx
    simp only [hx, if_false, Bool.false_eq_true]
    refine List.nodup_append.mpr ⟨h, List.nodup_singleton x, ?_⟩
    intro a ha hax
    rw [List.mem_singleton] at hax
    exact hnx (hax ▸ ha)

theorem mem_foldl_setAdd {α : Type} (g : α → String) (xs : List α)
    (acc : List String) (y : String) :
    y ∈ xs.foldl (fun a q => setAdd a (g q)) acc ↔ y ∈ acc ∨ y ∈ xs.map g := by
  induction xs generalizing acc with
  | nil => simp
  | cons x xs ih =>
      simp only [List.foldl_cons, List.map_cons, List.mem_cons]
      rw [ih, mem_setAdd]
      tauto

theorem nodup_foldl_setAdd {α : Type} (g : α → String) (xs : List α)
    (acc : List String) (h : acc.Nodup) :
    (xs.foldl (fun a q => setAdd a (g q)) acc).Nodup := by
  induction xs generalizing acc with
  | nil => exact h
  | cons x xs ih => exact ih _ (nodup_setAdd acc (g x) h)

theorem mem_allKeysOf (body : List (String × Json)) (y : String) :
    y ∈ allKeysOf body ↔ y ∈ spec_key_names body := by
  suffices hgen : ∀ acc : List String,
      (y ∈ body.foldl (fun acc p =>
        let acc := setAdd acc (strLower p.1)
        match p.2 with
        | .obj fields => fields.foldl (fun a q => setAdd a (strLower q.1)) acc
        | _ => acc) acc ↔ y ∈ acc ∨ y ∈ spec_key_names body) by
    have := hgen []
    simpa [allKeysOf] using this
  induction body with
  | nil => intro acc; simp [spec_key_names]
  | cons p rest ih =>
      intro acc
      simp only [List.foldl_cons]
      rw [ih]
      have hstep : ∀ z : String,
          (z ∈ (match p.2 with
            | Json.obj fields =>
                fields.foldl (fun a (q : String × Json) => setAdd a (strLower q.1))
                  (setAdd acc (strLower p.1))
            | _ => setAdd acc (strLower p.1))) ↔
          z ∈ acc ∨ z = strLower p.1 ∨
            z ∈ (match p.2 with
              | Json.obj fields => fields.map (fun q : String × Json => strLower q.1)
              | _ => ([] : List String)) := by
        intro z
        cases p.2 with
        | obj fields =>
            rw [mem_foldl_setAdd, mem_setAdd]
            tauto
        | null => rw [mem_setAdd]; simp
        | str s => rw [mem_setAdd]; simp
        | num n => rw [mem_setAdd]; simp
        | boolean b => rw [mem_setAdd]; simp
        | arr xs => rw [mem_setAdd]; simp
      rw [hstep]
      simp only [spec_key_names, List.map_cons, List.flatMap_cons,
        List.cons_append, List.mem_append, List.mem_cons]
      tauto

theorem nodup_allKeysOf (body : List (String × Json)) : (allKeysOf body).Nodup := by
  suffices hgen : ∀ acc : List String, acc.Nodup →
      (body.foldl (fun acc p =>
        let acc := setAdd acc (strLower p.1)
        match p.2 with
        | .obj fields => fields.foldl (fun a q => setAdd a (strLower q.1)) acc
        | _ => acc) acc).Nodup by
    exact hgen [] List.nodup_nil
  induction body with
  | nil => intro acc h; exact h
  | cons p rest ih =>
      intro acc h
      simp only [List.foldl_cons]
      apply ih
      cases hp : p.2 with
      | obj fields => exact nodup_foldl_setAdd _ fields _ (nodup_setAdd acc _ h)
      | null => exact nodup_setAdd acc _ h
      | str s => exact nodup_setAdd acc _ h
      | num n => exact nodup_setAdd acc _ h
      | boolean b => exact nodup_setAdd acc _ h
      | arr xs => exact nodup_setAdd acc _ h

theorem allKeysOf_perm_dedup (body : List (String × Json)) :
    List.Perm (allKeysOf body) (spec_key_names body).dedup := by
  rw [List.perm_ext_iff_of_nodup (nodup_allKeysOf body) (List.nodup_dedup _)]
  intro a
  rw [mem_allKeysOf, List.mem_dedup]

/-- C7: the captured-response score equals the reference formula — the
fixed rejection value `-1000` (below the rejection floor `0`) whenever the
URL contains a noise substring, regardless of the body; otherwise 10 per
distinct indicative key name, 15 per indicative URL keyword, plus the
top-level key count — so with 5 indicative keys and no indicative URL
keyword the score is exactly `50 + bodyKeyCount`. -/
theorem score_matches_reference (api_url : String) (body : List (String × Json)) :
    score_api_response api_url body = spec_score api_url body ∧
    ((noiseUrlFragments.any fun frag => strContains (strLower api_url) frag) = true →
      score_api_response api_url body = -1000 ∧ score_api_response api_url body < 0) ∧
    ((noiseUrlFragments.any fun frag => strContains (strLower api_url) frag) = false →
      spec_indicative_key_count body = 5 → spec_url_keyword_count api_url = 0 →
      score_api_response api_url body = 50 + (body.length : Int)) := by
  have hhits : ((allKeysOf body).filter
      (fun k => detailDataKeys.any (fun dk => strContains k dk))).length =
      spec_indicative_key_count body := by
    unfold spec_indicative_key_count
    exact ((allKeysOf_perm_dedup body).filter _).length_eq
  refine ⟨?_, ?_, ?_⟩
  · by_cases hnoise : (noiseUrlFragments.any
        fun frag => strContains (strLower api_url) frag) = true
    · simp [score_api_response, spec_score, hnoise]
    · simp only [score_api_response, spec_score, hnoise, if_false,
        Bool.false_eq_true, spec_url_keyword_count]
      rw [hhits]
      push_cast
      ring
  · intro hnoise
    refine ⟨by simp [score_api_response, hnoise], ?_⟩
    simp [score_api_response, hnoise]
  · intro hnoise h5 h0
    simp only [score_api_response, hnoise, if_false, Bool.false_eq_true]
    rw [hhits, h5]
    have h0' : ((urlBonusKeywords.filter
        (fun kw => strContains (strLower api_url) kw)).length) = 0 := h0
    rw [h0']
    push_cast
    ring

/-- C7 witness: a clean URL and a body with exactly five indicative keys
scores `50 + 5`. -/
theorem score_matches_reference_witness :
    score_api_response "https://api.ex.com/v1/x"
      [("name", Json.str "A"), ("address", Json.str "B"),
       ("phone", Json.str "C"), ("email", Json.str "D"),
       ("website", Json.str "E")] = 50 + (5 : Int) :=
  (score_matches_reference "https://api.ex.com/v1/x"
    [("name", Json.str "A"), ("address", Json.str "B"),
     ("phone", Json.str "C"), ("email", Json.str "D"),
     ("website", Json.str "E")]).2.2 (by decide) (by decide) (by decide)

/-! ## Claim C8 — API_ENDPOINT pagination loop -/

/-- C8 counterexample: on a body whose first wrapper field holds an empty
list, the code does not take the items from that list-valued field — it
takes the whole object as one item. -/
theorem empty_wrapper_list_counterexample :
    items_raw_of (Json.obj [("data", Json.arr [])]) =
      [Json.obj [("data", Json.arr [])]] ∧
    claim_items_of (Json.obj [("data", Json.arr [])]) = ([] : List Json) ∧
    items_raw_of (Json.obj [("data", Json.arr [])]) ≠
      claim_items_of (Json.obj [("data", Json.arr [])]) := by
  refine ⟨rfl, rfl, ?_⟩
  intro h
  rw [show items_raw_of (Json.obj [("data", Json.arr [])]) =
      [Json.obj [("data", Json.arr [])]] from rfl,
    show claim_items_of (Json.obj [("data", Json.arr [])]) = ([] : List Json)
      from rfl] at h
  exact List.cons_ne_nil _ _ h

/-- What one appended page of the API loop satisfies: the server's `k`-th
response was a 200 with a parsable body yielding a non-empty `items_raw`,
and the page's items are its flattening. -/
def page_good (server : Nat → ApiResp) (endpoint : String) (k : Nat)
    (pd : PageData) : Prop :=
  (server k).status = 200 ∧
  ∃ body, (server k).body = some body ∧
    items_raw_of body ≠ [] ∧
    (items_raw_of body).mapM flattenItem = Except.ok pd.items ∧
    pd.url = endpoint ++ "?page=" ++ toString k

/-- Invariant of the `_scrape_api` while-loop (full-crawl mode): it
appends at most `remaining` pages, each satisfying `page_good` at its page
number. -/
theorem scrape_api_loop_spec (server : Nat → ApiResp) (endpoint : String) :
    ∀ (remaining page_num total : Nat) (pages out : List PageData),
    scrape_api_loop server endpoint none remaining page_num total pages =
      Except.ok out →
    ∃ tail, out = pages ++ tail ∧ tail.length ≤ remaining ∧
      ∀ j (hj : j < tail.length),
        page_good server endpoint (page_num + j) (tail.get ⟨j, hj⟩) := by
  intro remaining
  induction remaining with
  | zero =>
      intro page_num total pages out h
      refine ⟨[], ?_, by simp, by intro j hj; cases hj⟩
      simpa [scrape_api_loop] using h.symm
  | succ r ih =>
      intro page_num total pages out h
      rw [scrape_api_loop] at h
      by_cases hst : (server page_num).status ≠ 200
      · rw [if_pos hst] at h
        refine ⟨[], by simpa using h.symm, by simp, by intro j hj; cases hj⟩
      · rw [if_neg hst] at h
        push_neg at hst
        cases hbody : (server page_num).body with
        | none =>
            rw [hbody] at h
            refine ⟨[], by simpa using h.symm, by simp, by intro j hj; cases hj⟩
        | some data =>
            rw [hbody] at h
            simp only [] at h
            by_cases hraw : (items_raw_of data).isEmpty = true
            · rw [if_pos hraw] at h
              refine ⟨[], by simpa using h.symm, by simp, by intro j hj; cases hj⟩
            · rw [if_neg hraw] at h
              cases hmap : (items_raw_of data).mapM flattenItem with
              | error e => rw [hmap] at h; cases h
              | ok items =>
                  rw [hmap] at h
                  obtain ⟨tail, hout, hlen, hgood⟩ := ih (page_num + 1) _ _ out h
                  refine ⟨({ url := endpoint ++ "?page=" ++ toString page_num
                             items := items
                             detail_pages := []
                             detail_sub_pages := []
                             detail_api_responses := [] } : PageData) :: tail,
                    by simpa using hout, by simpa using Nat.succ_le_succ hlen, ?_⟩
                  intro j hj
                  cases j with
                  | zero =>
                      refine ⟨hst, data, hbody, ?_, hmap, rfl⟩
                      intro hnil
                      rw [hnil] at hraw
                      exact hraw rfl
                  | succ j' =>
                      have hj' : j' < tail.length := Nat.lt_of_succ_lt_succ hj
                      have hgj := hgood j' hj'
                      rw [show page_num + (j' + 1) = page_num + 1 + j' from by omega]
                      exact hgj

/-- C8 amended: the API_ENDPOINT loop always terminates — starting at page
index 0 and incrementing each iteration, it stops on a non-200 response,
an unparsable body, an empty extracted item set, or the
`max_pages_per_crawl` ceiling, returning at most that many pages, each
built from a 200-status parsable response; per page, items come from the
array root, else from the first list-valued wrapper field when that list
is non-empty, else the whole object as one item. -/
theorem scrape_api_terminates_and_sources (s : Settings)
    (server : Nat → ApiResp) (endpoint : String) (out : List PageData)
    (h : scrape_api s server endpoint none = Except.ok out) :
    (out.length ≤ s.max_pages_per_crawl ∧
      ∀ j (hj : j < out.length),
        page_good server endpoint j (out.get ⟨j, hj⟩)) ∧
    (∀ xs, items_raw_of (Json.arr xs) = xs) ∧
    (∀ fields xs, firstWrapperList fields = some xs → xs ≠ [] →
      items_raw_of (Json.obj fields) = xs) ∧
    (∀ fields, firstWrapperList fields = none →
      items_raw_of (Json.obj fields) = [Json.obj fields]) ∧
    (∀ fields, firstWrapperList fields = some [] →
      items_raw_of (Json.obj fields) = [Json.obj fields]) := by
  refine ⟨?_, ?_, ?_, ?_, ?_⟩
  · obtain ⟨tail, hout, hlen, hgood⟩ :=
      scrape_api_loop_spec server endpoint s.max_pages_per_crawl 0 0 [] out h
    rw [hout]
    simp only [List.nil_append]
    refine ⟨hlen, ?_⟩
    intro j hj
    simpa using hgood j hj
  · intro xs; rfl
  · intro fields xs hw hne
    have : xs.isEmpty = false := by
      cases xs with
      | nil => exact absurd rfl hne
      | cons a l => rfl
    simp [items_raw_of, hw, this]
  · intro fields hw
    simp [items_raw_of, hw]
  · intro fields hw
    simp [items_raw_of, hw]

/-- A two-page fixture server: page 0 returns one exhibitor, page 1 a 404. -/
def fixtureServer : Nat → ApiResp := fun k =>
  if k == 0 then { status := 200, body := some (Json.arr [Json.obj [("name", Json.str "A")]]) }
  else { status := 404, body := none }

/-- C8 witness: the loop on the fixture server stops after one page,
within the ceiling. -/
theorem scrape_api_terminates_and_sources_witness :
    ([({ url := "https://api.ex.com/items?page=0"
         items := [[("name", some "A")]]
         detail_pages := []
         detail_sub_pages := []
         detail_api_responses := [] } : PageData)] : List PageData).length ≤
      defaultSettings.max_pages_per_crawl :=
  (scrape_api_terminates_and_sources defaultSettings fixtureServer
    "https://api.ex.com/items"
    [{ url := "https://api.ex.com/items?page=0"
       items := [[("name", some "A")]]
       detail_pages := []
       detail_sub_pages := []
       detail_api_responses := [] }] rfl).1.1

/-! ## Claim C9 — RawPage maps only grow -/

/-- Pointwise growth: same url and items, and every map's key set only
gained keys. -/
def grows (p q : PageData) : Prop :=
  q.url = p.url ∧ q.items = p.items ∧
  dkeys p.detail_pages ⊆ dkeys q.detail_pages ∧
  dkeys p.detail_sub_pages ⊆ dkeys q.detail_sub_pages ∧
  dkeys p.detail_api_responses ⊆ dkeys q.detail_api_responses

/-- Listwise growth: equal length and pointwise `grows`. -/
def grows_all (ps qs : List PageData) : Prop :=
  ps.length = qs.length ∧
  ∀ j (h1 : j < ps.length) (h2 : j < qs.length),
    grows (ps.get ⟨j, h1⟩) (qs.get ⟨j, h2⟩)

theorem grows_refl (p : PageData) : grows p p :=
  ⟨rfl, rfl, fun _ h => h, fun _ h => h, fun _ h => h⟩

theorem grows_trans {p q r : PageData} (h1 : grows p q) (h2 : grows q r) :
    grows p r :=
  ⟨h2.1.trans h1.1, h2.2.1.trans h1.2.1,
   fun x hx => h2.2.2.1 (h1.2.2.1 hx),
   fun x hx => h2.2.2.2.1 (h1.2.2.2.1 hx),
   fun x hx => h2.2.2.2.2 (h1.2.2.2.2 hx)⟩

theorem grows_all_refl (ps : List PageData) : grows_all ps ps :=
  ⟨rfl, fun _ _ _ => grows_refl _⟩

theorem grows_all_trans {ps qs rs : List PageData} (h1 : grows_all ps qs)
    (h2 : grows_all qs rs) : grows_all ps rs := by
  refine ⟨h1.1.trans h2.1, ?_⟩
  intro j hj1 hj2
  have hjq : j < qs.length := by rw [← h1.1]; exact hj1
  exact grows_trans (h1.2 j hj1 hjq) (h2.2 j hjq hj2)

theorem grows_all_map (ps : List PageData) (f : PageData → PageData)
    (hf : ∀ p, grows p (f p)) : grows_all ps (ps.map f) := by
  refine ⟨(List.length_map ps f).symm, ?_⟩
  intro j h1 h2
  rw [List.get_eq_getElem, List.get_eq_getElem, List.getElem_map]
  exact hf _

theorem listModify_length {α : Type} (l : List α) (i : Nat) (f : α → α) :
    (listModify l i f).length = l.length := by
  induction l generalizing i with
  | nil => rfl
  | cons x xs ih =>
      cases i with
      | zero => rfl
      | succ i' => simp [listModify, ih]

theorem listModify_get {α : Type} (l : List α) (i : Nat) (f : α → α)
    (j : Nat) (h1 : j < (listModify l i f).length) (h2 : j < l.length) :
    (listModify l i f).get ⟨j, h1⟩ =
      if i = j then f (l.get ⟨j, h2⟩) else l.get ⟨j, h2⟩ := by
  induction l generalizing i j with
  | nil => cases h2
  | cons x xs ih =>
      cases i with
      | zero =>
          cases j with
          | zero => simp [listModify]
          | succ j' => simp [listModify]
      | succ i' =>
          cases j with
          | zero => simp [listModify]
          | succ j' =>
              have h2' : j' < xs.length := Nat.lt_of_succ_lt_succ h2
              have h1' : j' < (listModify xs i' f).length := by
                rw [listModify_length]; exact h2'
              have := ih i' j' h1' h2'
              simpa [listModify, Nat.succ_eq_add_one] using this

theorem grows_all_listModify {ps qs : List PageData} (i : Nat)
    (g : PageData → PageData) (hq : ∀ q, grows q (g q))
    (h : grows_all ps qs) : grows_all ps (listModify qs i g) := by
  refine ⟨h.1.trans (listModify_length qs i g).symm, ?_⟩
  intro j h1 h2
  have hjq : j < qs.length := by rw [← listModify_length qs i g]; exact h2
  rw [listModify_get qs i g j h2 hjq]
  by_cases hij : i = j
  · rw [if_pos hij]
    exact grows_trans (h.2 j h1 hjq) (hq _)
  · rw [if_neg hij]
    exact h.2 j h1 hjq

/-- The detail-pages merge only grows each page. -/
theorem grows_map_detail_pages (pd : PageData) (dh : List (String × String)) :
    grows pd { pd with detail_pages := dupdate pd.detail_pages dh } :=
  ⟨rfl, rfl, dkeys_subset_dupdate _ _, fun _ h => h, fun _ h => h⟩

/-- The sub-pages merge only grows each page. -/
theorem grows_map_sub_pages (pd : PageData)
    (sub : List (String × List (String × String))) :
    grows pd { pd with detail_sub_pages := dupdate pd.detail_sub_pages sub } :=
  ⟨rfl, rfl, fun _ h => h, dkeys_subset_dupdate _ _, fun _ h => h⟩

/-- Detail-page enrichment only grows the page list. -/
theorem enrich_detail_pages_grows (parse : ParseFn)
    (net : String → Option String) (s : Settings) (pages : List PageData)
    (plan : ScrapingPlan) (md : Option Nat) (pages₁ : List PageData)
    (h : enrich_detail_pages parse net s pages plan md = Except.ok pages₁) :
    grows_all pages pages₁ := by
  unfold enrich_detail_pages at h
  cases hdl : plan.target.detail_link_selector with
  | none =>
      rw [hdl] at h
      simp only [] at h
      cases h
      exact grows_all_refl _
  | some dls =>
      rw [hdl] at h
      simp only [] at h
      by_cases h1 : (dls == "") = true
      · rw [if_pos h1] at h
        cases h
        exact grows_all_refl _
      · rw [if_neg h1] at h
        by_cases h2 : (collect_detail_urls pages
            (urlScheme plan.url ++ "://" ++ urlNetloc plan.url)).isEmpty = true
        · rw [if_pos h2] at h
          cases h
          exact grows_all_refl _
        · rw [if_neg h2] at h
          try simp only [] at h
          cases hdpp : plan.detail_page_plan with
          | none =>
              rw [hdpp] at h
              simp only [] at h
              cases h
              exact grows_all_map pages _ (fun pd => grows_map_detail_pages pd _)
          | some dpp =>
              rw [hdpp] at h
              simp only [] at h
              by_cases h3 : (!dpp.sub_links.isEmpty) = true
              · rw [if_pos h3] at h
                split at h
                · cases h
                · cases h
                  exact grows_all_trans
                    (grows_all_map pages _ (fun pd => grows_map_detail_pages pd _))
                    (grows_all_map _ _ (fun pd => grows_map_sub_pages pd _))
              · rw [if_neg h3] at h
                cases h
                exact grows_all_map pages _ (fun pd => grows_map_detail_pages pd _)

/-- Attaching responses through the API-call fold only grows pages. -/
theorem grows_all_api_foldl (responses : List (String × Json))
    (l : List (Nat × Nat × String × String)) :
    ∀ (ps acc : List PageData), grows_all ps acc →
    grows_all ps (l.foldl (fun pgs t =>
      match dlookup responses t.2.2.2 with
      | some resp => listModify pgs t.1 (fun pd =>
          { pd with detail_api_responses :=
              dinsert pd.detail_api_responses t.2.2.1 resp })
      | none => pgs) acc) := by
  induction l with
  | nil => intro ps acc h; exact h
  | cons t rest ih =>
      intro ps acc h
      simp only [List.foldl_cons]
      apply ih
      cases hd : dlookup responses t.2.2.2 with
      | none => exact h
      | some resp =>
          exact grows_all_listModify _ _
            (fun q => ⟨rfl, rfl, fun _ hx => hx, fun _ hx => hx,
              dkeys_subset_dinsert _ _ _⟩) h

/-- API enrichment only grows the page list. -/
theorem enrich_detail_api_grows (netJson : String → Option Json)
    (pages : List PageData) (plan : ScrapingPlan) (md : Option Nat) :
    grows_all pages (enrich_detail_api netJson pages plan md) := by
  unfold enrich_detail_api
  split
  · exact grows_all_refl _
  · simp only []
    split
    · exact grows_all_refl _
    · exact grows_all_api_foldl _ _ pages pages (grows_all_refl pages)

/-- C9: during one run the `PageData` maps only grow — detail-page
enrichment followed by API enrichment never removes a key from
`detail_pages`, `detail_sub_pages` or `detail_api_responses`, never
shortens (in fact never changes) an `items` list, and keeps every page's
URL. -/
theorem enrichment_maps_only_grow (parse : ParseFn)
    (net : String → Option String) (netJson : String → Option Json)
    (s : Settings) (pages : List PageData) (plan : ScrapingPlan)
    (md : Option Nat) (pages₁ : List PageData)
    (h : enrich_detail_pages parse net s pages plan md = Except.ok pages₁) :
    grows_all pages pages₁ ∧
    grows_all pages (enrich_detail_api netJson pages₁ plan md) :=
  ⟨enrich_detail_pages_grows parse net s pages plan md pages₁ h,
   grows_all_trans (enrich_detail_pages_grows parse net s pages plan md pages₁ h)
     (enrich_detail_api_grows netJson pages₁ plan md)⟩

/-- C9 witness: both enrichment passes on a concrete (empty) run. -/
theorem enrichment_maps_only_grow_witness :
    grows_all [] [] ∧
    grows_all []
      (enrich_detail_api noNetJson [] planNoneSingle none) :=
  enrichment_maps_only_grow emptyParse noNet noNetJson defaultSettings []
    planNoneSingle none [] rfl

/-! ## Claim C10 — all pages share the enrichment maps -/

/-- C10: after detail-page enrichment of pages whose detail maps start
empty (as every scrape path creates them), every returned page carries the
same `detail_pages` map and the same `detail_sub_pages` map — the global
union of everything fetched, not a per-page restriction. -/
theorem detail_maps_shared (parse : ParseFn) (net : String → Option String)
    (s : Settings) (pages : List PageData) (plan : ScrapingPlan)
    (md : Option Nat) (pages₂ : List PageData)
    (hempty : ∀ p ∈ pages, p.detail_pages = [] ∧ p.detail_sub_pages = [])
    (h : enrich_detail_pages parse net s pages plan md = Except.ok pages₂) :
    ∃ m msub, ∀ p ∈ pages₂, p.detail_pages = m ∧ p.detail_sub_pages = msub := by
  unfold enrich_detail_pages at h
  cases hdl : plan.target.detail_link_selector with
  | none =>
      rw [hdl] at h
      simp only [] at h
      cases h
      exact ⟨[], [], hempty⟩
  | some dls =>
      rw [hdl] at h
      simp only [] at h
      by_cases h1 : (dls == "") = true
      · rw [if_pos h1] at h
        cases h
        exact ⟨[], [], hempty⟩
      · rw [if_neg h1] at h
        by_cases h2 : (collect_detail_urls pages
            (urlScheme plan.url ++ "://" ++ urlNetloc plan.url)).isEmpty = true
        · rw [if_pos h2] at h
          cases h
          exact ⟨[], [], hempty⟩
        · rw [if_neg h2] at h
          try simp only [] at h
          cases hdpp : plan.detail_page_plan with
          | none =>
              rw [hdpp] at h
              simp only [] at h
              cases h
              refine ⟨dupdate []
                (detail_fetch_map net plan.requires_javascript
                  (dedupPreserve (capOpt md (collect_detail_urls pages
                    (urlScheme plan.url ++ "://" ++ urlNetloc plan.url))))), [], ?_⟩
              intro p hp
              obtain ⟨p₀, hp₀, rfl⟩ := List.mem_map.mp hp
              obtain ⟨he1, he2⟩ := hempty p₀ hp₀
              constructor
              · simp only [he1]
              · exact he2
          | some dpp =>
              rw [hdpp] at h
              simp only [] at h
              by_cases h3 : (!dpp.sub_links.isEmpty) = true
              · rw [if_pos h3] at h
                split at h
                · cases h
                · cases h
                  rename_i sub_link_data heq
                  refine ⟨dupdate []
                    (detail_fetch_map net plan.requires_javascript
                      (dedupPreserve (capOpt md (collect_detail_urls pages
                        (urlScheme plan.url ++ "://" ++ urlNetloc plan.url))))),
                    dupdate [] sub_link_data, ?_⟩
                  intro p hp
                  obtain ⟨p₁, hp₁, rfl⟩ := List.mem_map.mp hp
                  obtain ⟨p₀, hp₀, rfl⟩ := List.mem_map.mp hp₁
                  obtain ⟨he1, he2⟩ := hempty p₀ hp₀
                  constructor
                  · simp only [he1]
                  · simp only [he2]
              · rw [if_neg h3] at h
                cases h
                refine ⟨dupdate []
                  (detail_fetch_map net plan.requires_javascript
                    (dedupPreserve (capOpt md (collect_detail_urls pages
                      (urlScheme plan.url ++ "://" ++ urlNetloc plan.url))))), [], ?_⟩
                intro p hp
                obtain ⟨p₀, hp₀, rfl⟩ := List.mem_map.mp hp
                obtain ⟨he1, he2⟩ := hempty p₀ hp₀
                constructor
                · simp only [he1]
                · exact he2

/-- Two concrete listing pages, only the first of which links a detail
page. -/
def twoFixturePages : List PageData :=
  [{ url := "https://ex.com/list"
     items := [[("detail_link", some "/d")]]
     detail_pages := []
     detail_sub_pages := []
     detail_api_responses := [] },
   { url := "https://ex.com/list?page=2"
     items := []
     detail_pages := []
     detail_sub_pages := []
     detail_api_responses := [] }]

/-- C10 witness: on the two concrete pages both returned pages carry the
identical detail map. -/
theorem detail_maps_shared_witness :
    ∃ m msub, ∀ p ∈
      [({ url := "https://ex.com/list"
          items := [[("detail_link", some "/d")]]
          detail_pages := [("https://ex.com/d", "H")]
          detail_sub_pages := []
          detail_api_responses := [] } : PageData),
       { url := "https://ex.com/list?page=2"
         items := []
         detail_pages := [("https://ex.com/d", "H")]
         detail_sub_pages := []
         detail_api_responses := [] }],
      p.detail_pages = m ∧ p.detail_sub_pages = msub :=
  detail_maps_shared emptyParse constNet defaultSettings twoFixturePages
    planWithDetailSelector none _ (by decide) rfl

end WebCrawler
